import Mathlib

/-!
Verification development for makegrind.

Shallow embedding of the two modules under src/makegrind:

* output.py — dump_callgrind, the callgrind profile exporter, and
* the CLI module — its option callbacks find_json_files and target_specifier,
  and the well-formedness of its module-level statements.

Durations are datetime.timedelta values; a timedelta stores an exact integer
count of microseconds, so a duration is embedded as that count (an integer).
CPython round() rounds half to even; the quotient of two timedeltas is the
exact ratio of their microsecond counts, embedded as exact integer division
with a half-to-even rounding step.
-/

namespace Makegrind

/-- Python round() applied to the exact quotient a / b of two integers with
b positive: the nearest integer, ties going to the even one (CPython
banker rounding). Written with Euclidean division so a / b here is the
floor quotient and a % b the remainder in [0, b). -/
def pyRoundDiv (a b : ℤ) : ℤ :=
  if 2 * (a % b) < b then a / b
  else if b < 2 * (a % b) then a / b + 1
  else if (a / b) % 2 = 0 then a / b else a / b + 1

/-- Embeds round(x / datetime.timedelta(microseconds=1)) from output.py,
where x is a timedelta holding d microseconds: the divisor timedelta holds
exactly one microsecond, so the Python expression is round() of the exact
ratio d / 1. -/
def microseconds (d : ℤ) : ℤ := pyRoundDiv d 1

/-- Entry metadata of the merged graph (graph.entry in output.py): the
creator identity string and the originating argv of the top-level build. -/
structure Entry where
  creator : String
  argv : List String
deriving DecidableEq

/-- Per-target node data exactly as dump_callgrind reads it: directory,
optional source file, target name, defining line, wall-clock elapsed time
and recipe elapsed time (both as integer microsecond counts of the
underlying timedelta), the recipe-executed flag (data.recipe), and the
identity keys of the direct successors. Successor data objects are
resolved lookups into the owning graph's target mapping. -/
structure TargetData where
  directory : String
  file : Option String
  target : String
  line : ℤ
  elapsed : ℤ
  recipe : Bool
  elapsed_recipe : ℤ
  successors : List String
deriving DecidableEq

/-- The merged build graph: targets embeds graph.targets.info, an
insertion-ordered mapping from identity key to target data (a Python
dict), as an association list; entry embeds graph.entry. -/
structure Graph where
  entry : Entry
  targets : List (String × TargetData)
deriving DecidableEq

/-- The data objects yielded by data.successors.values(): each successor
key resolved in the owning graph's target mapping. -/
def resolvedSuccessors (g : Graph) (data : TargetData) : List TargetData :=
  data.successors.filterMap (fun k => g.targets.lookup k)

/-- The writes of output.py lines 48-60 for one successor dep of a caller
whose defining line is callerLine: a successor whose file is None is
skipped (lines 49-50); otherwise the cob/cfi/cfn lines, the calls=1 line
carrying the callee line, and the cost line pairing the caller line with
the callee elapsed time in microseconds. -/
def depWrites (callerLine : ℤ) (dep : TargetData) : List String :=
  match dep.file with
  | none => []
  | some f =>
    ["cob=" ++ dep.directory ++ "\n",
     "cfi=" ++ f ++ "\n",
     "cfn=" ++ dep.target ++ "\n",
     "calls=1 " ++ toString dep.line ++ "\n",
     toString callerLine ++ " " ++ toString (microseconds dep.elapsed) ++ "\n"]

/-- The writes of output.py lines 30-60 for one target: a target whose
file is None is skipped entirely (lines 31-32); otherwise the ob/fl/fn
lines, the cost line built from [str(line), str(round(elapsed))] with the
recipe time appended when data.recipe holds, joined with single spaces,
then the successor blocks. -/
def targetWrites (g : Graph) (data : TargetData) : List String :=
  match data.file with
  | none => []
  | some f =>
    ["\nob=" ++ data.directory ++ "\n",
     "fl=" ++ f ++ "\n",
     "fn=" ++ data.target ++ "\n",
     String.intercalate " "
       ([toString data.line, toString (microseconds data.elapsed)] ++
        (if data.recipe then [toString (microseconds data.elapsed_recipe)] else [])) ++ "\n"]
    ++ (resolvedSuccessors g data).flatMap (depWrites data.line)

/-- The nine header writes of output.py lines 21-29, in order. -/
def headerWrites (g : Graph) : List String :=
  ["# callgrind format\n",
   "version: 1\n",
   "creator: " ++ g.entry.creator ++ "\n",
   "cmd: " ++ String.intercalate " " g.entry.argv ++ "\n",
   "desc: Node: Targets\n",
   "positions: line\n",
   "event: Wt : Wall Time\n",
   "event: Rt : Recipe Time\n",
   "events: Wt Rt\n\n"]

/-- Every string dump_callgrind passes to fd.write, in order: the header
writes followed by the per-target blocks in mapping order. -/
def dumpWrites (g : Graph) : List String :=
  headerWrites g ++ (g.targets.map Prod.snd).flatMap (targetWrites g)

/-- The full text dump_callgrind sends to the output stream fd. -/
def dump_callgrind (g : Graph) : String :=
  String.join (dumpWrites g)

/-- One fd.write call viewed as a transition on the pair (graph, written
output): writing appends to the stream; the graph component is carried
through because the body of dump_callgrind contains no assignment to the
graph, its targets or its entry. -/
def writeStep (st : Graph × List String) (s : String) : Graph × List String :=
  (st.1, st.2 ++ [s])

/-- dump_callgrind as an explicit state transformer: starting from the
graph and an empty stream, perform every write in order. -/
def dumpRun (g : Graph) : Graph × List String :=
  (dumpWrites g).foldl writeStep (g, [])

/-- The numeric cost values carried by the dump_callgrind writes, stated
after the export-completeness sentence of the spec: for every exported
target its wall time, its recipe time when the recipe ran, and the
callee wall time of every exported call edge — exactly the cost tokens
embedded by targetWrites and depWrites. -/
def emittedCosts (g : Graph) : List ℤ :=
  (g.targets.map Prod.snd).flatMap fun data =>
    match data.file with
    | none => []
    | some _ =>
      microseconds data.elapsed ::
        ((if data.recipe then [microseconds data.elapsed_recipe] else []) ++
         (resolvedSuccessors g data).flatMap fun dep =>
           match dep.file with
           | none => []
           | some _ => [microseconds dep.elapsed])

/-- Python exceptions that the embedded CLI callbacks can raise. The
message strings are abridged (no quote characters) but keep the CPython
wording otherwise. -/
inductive PyErr where
  | typeError (msg : String)
  | nameError (msg : String)
  | badParameter (msg : String)
deriving DecidableEq

/-- File-system oracle for find_json_files: isFile embeds os.path.isfile,
rglob p the list of str(file) for file in Path(p).rglob("build.*.json")
in traversal order, cwd the result of os.getcwd(). -/
structure FileSystem where
  isFile : String → Bool
  rglob : String → List String
  cwd : String

/-- The find_json_files callback of the CLI module, lines 61-81. For a
path that is a file, paths.append(path). Otherwise the source evaluates
paths.extend(paths.extend([str(file) for file in Path(path).rglob(...)])):
the inner extend appends the rglob results to paths and evaluates to
None, and the outer paths.extend(None) then raises TypeError. When the
loop completes, an empty result raises click.BadParameter naming the
searched paths; Python returns set(paths), embedded as the list with
duplicates removed. -/
def find_json_files (fs : FileSystem) (value : List String) : Except PyErr (List String) := do
  let value := if value.isEmpty then [fs.cwd] else value
  let mut paths : List String := []
  for path in value do
    if fs.isFile path then
      paths := paths ++ [path]
    else
      paths := paths ++ fs.rglob path
      throw (PyErr.typeError "NoneType object is not iterable")
  if paths.isEmpty then
    throw (PyErr.badParameter
      ("unable to find build.json files in " ++ String.intercalate ", " value))
  return paths.eraseDups

/-- The filter record the target_specifier callback is meant to build for
one TARGET:MAKEFILE:PID argument. -/
structure TargetFilter where
  target : Option String
  makefile : Option String
  pid : Option ℤ
deriving DecidableEq

/-- The target_specifier callback of the CLI module, lines 44-58. For each
argument the source binds the split result to the loop variable target,
but the dict literal that follows reads arg[0], arg[1] and arg[2]; no
name arg is in scope anywhere in the module, so CPython raises NameError
on the first iteration. An empty tuple of arguments returns the empty
list without entering the loop. -/
def target_specifier (value : List String) : Except PyErr (List TargetFilter) := do
  let mut targets : List TargetFilter := []
  for t in value do
    let _ := t.splitOn ":"
    throw (PyErr.nameError "name arg is not defined")
  return targets

/-- Token alphabet for the Python import-statement grammar: the keywords
of the statement, identifiers, and the punctuation it uses. -/
inductive PyTok where
  | kwImport
  | kwFrom
  | kwAs
  | ident (s : String)
  | dot
  | comma
  | star
deriving DecidableEq

/-- Modelled from the Python language reference grammar: the continuation
of dotted_as_names after its first NAME. The flag records whether the
current dotted_as_name already consumed an as-clause (after which only a
comma or the end may follow). -/
def importNameTail : Bool → List PyTok → Bool
  | _, [] => true
  | false, .dot :: .ident _ :: rest => importNameTail false rest
  | false, .kwAs :: .ident _ :: rest => importNameTail true rest
  | _, .comma :: .ident _ :: rest => importNameTail false rest
  | _, _ => false

/-- Modelled from the Python language reference grammar: the continuation
of import_as_names after its first NAME (names here are plain, not
dotted). -/
def importAsNamesTail : Bool → List PyTok → Bool
  | _, [] => true
  | false, .kwAs :: .ident _ :: rest => importAsNamesTail true rest
  | _, .comma :: .ident _ :: rest => importAsNamesTail false rest
  | _, _ => false

/-- Modelled from the Python language reference grammar: the continuation
of a from-based statement after the first NAME of the module path: the
rest of the dotted module name, then the import keyword, then a star or
a list of imported names. -/
def fromModTail : List PyTok → Bool
  | .dot :: .ident _ :: rest => fromModTail rest
  | [.kwImport, .star] => true
  | .kwImport :: .ident _ :: rest => importAsNamesTail false rest
  | _ => false

/-- Modelled from the Python language reference grammar production
for an import statement (either plain or from-based): the statement is
the import keyword followed by dotted_as_names, or the from keyword
followed by a module path, the import keyword and a list of names.
Relative leading dots and parenthesized name lists are omitted; both are
irrelevant to the statements of this module. The keyword from is
reserved and is never an identifier. -/
def isImportStmt : List PyTok → Bool
  | .kwImport :: .ident _ :: rest => importNameTail false rest
  | .kwFrom :: .ident _ :: rest => fromModTail rest
  | _ => false

/-- Token sequence of line 17 of the CLI module, whose tokens read:
the import keyword, the from keyword, pathlib, the import keyword, Path.
Here the import keyword is followed by the reserved keyword from, not by
a module name. -/
def line17Tokens : List PyTok :=
  [PyTok.kwImport, PyTok.kwFrom, PyTok.ident "pathlib", PyTok.kwImport, PyTok.ident "Path"]

/-- Sample entry for concrete evaluations. -/
def demoEntry : Entry := { creator := "remake", argv := ["remake", "all"] }

/-- Sample target without a source file (a phony target). -/
def phonyData : TargetData :=
  { directory := "/src", file := none, target := "all", line := 0,
    elapsed := 1500, recipe := false, elapsed_recipe := 0, successors := ["app"] }

/-- Sample target with a source file, an executed recipe and one
successor. -/
def appData : TargetData :=
  { directory := "/src", file := some "/src/Makefile", target := "app", line := 12,
    elapsed := 2500, recipe := true, elapsed_recipe := 1200, successors := ["lib"] }

/-- Sample leaf target with a source file and no executed recipe. -/
def libData : TargetData :=
  { directory := "/src/lib", file := some "/src/lib/Makefile", target := "lib", line := 3,
    elapsed := 700, recipe := false, elapsed_recipe := 0, successors := [] }

/-- Sample merged graph over the three sample targets. -/
def sampleGraph : Graph :=
  { entry := demoEntry,
    targets := [("all", phonyData), ("app", appData), ("lib", libData)] }

/-- Sample file system: one explicit trace file and one directory holding
one discoverable trace file. -/
def demoFS : FileSystem :=
  { isFile := fun p => p == "a.json"
    rglob := fun p => if p == "proj" then ["proj/build.1.json"] else []
    cwd := "/home/user" }

/-! Helper lemmas, shared across the development. -/

/-- pyRoundDiv is the identity on exact integers: dividing a timedelta of
d microseconds by the one-microsecond timedelta and rounding returns d. -/
theorem pyRoundDiv_one (d : ℤ) : pyRoundDiv d 1 = d := by
  simp [pyRoundDiv]

/-- The microsecond conversion of output.py is exact on timedelta values,
which always hold an integer number of microseconds. -/
theorem microseconds_eq_self (d : ℤ) : microseconds d = d :=
  pyRoundDiv_one d

/-- pyRoundDiv a b is a nearest integer to the exact quotient a / b: its
distance to the quotient is at most one half, stated over the integers
after scaling by 2b. In particular the conversion never truncates a
fractional part larger than one half toward zero. -/
theorem pyRoundDiv_nearest (a b : ℤ) (hb : 0 < b) :
    2 * |pyRoundDiv a b * b - a| ≤ b := by
  have h1 : b * (a / b) + a % b = a := Int.ediv_add_emod a b
  have h2 : 0 ≤ a % b := Int.emod_nonneg a (by omega)
  have h3 : a % b < b := Int.emod_lt_of_pos a hb
  have hc : a / b * b = b * (a / b) := mul_comm _ _
  have he : (a / b + 1) * b = b * (a / b) + b := by ring
  unfold pyRoundDiv
  split
  · rw [abs_of_nonpos (by omega)]
    omega
  · split
    · rw [abs_of_nonneg (by omega)]
      omega
    · split <;> [rw [abs_of_nonpos (by omega)]; rw [abs_of_nonneg (by omega)]] <;> omega

/-- A successful association-list lookup locates a pair of the list. -/
theorem lookup_mem {α β : Type} [BEq α] [LawfulBEq α] {l : List (α × β)} {k : α} {d : β}
    (h : l.lookup k = some d) : (k, d) ∈ l := by
  induction l with
  | nil => simp [List.lookup] at h
  | cons p rest ih =>
    obtain ⟨a, b⟩ := p
    rw [List.lookup] at h
    by_cases hk : k = a
    · subst hk
      simp at h
      subst h
      exact List.mem_cons_self _ _
    · have hne : (k == a) = false := by simp [hk]
      rw [hne] at h
      exact List.mem_cons_of_mem _ (ih h)

/-- String join of a single space over a two-element list. -/
theorem intercalate_two (s a b : String) : String.intercalate s [a, b] = a ++ s ++ b := rfl

/-- String join of a single space over a three-element list. -/
theorem intercalate_three (s a b c : String) :
    String.intercalate s [a, b, c] = a ++ s ++ b ++ s ++ c := rfl

/-- String.join written through its left fold, for arbitrary start. -/
theorem strJoin_foldl (l : List String) (init : String) :
    l.foldl (fun r s => r ++ s) init = init ++ String.join l := by
  induction l generalizing init with
  | nil => exact (String.append_empty init).symm
  | cons a t ih =>
    show t.foldl _ (init ++ a) = init ++ String.join (a :: t)
    rw [ih (init ++ a)]
    have h2 : String.join (a :: t) = a ++ String.join t := by
      show t.foldl _ a = a ++ String.join t
      exact ih a
    rw [h2, String.append_assoc]

/-- String.join distributes over list concatenation. -/
theorem strJoin_append (l1 l2 : List String) :
    String.join (l1 ++ l2) = String.join l1 ++ String.join l2 := by
  show (l1 ++ l2).foldl (fun r s => r ++ s) "" = _
  rw [List.foldl_append, strJoin_foldl l2]
  rfl

/-- String.join of the empty list. -/
theorem strJoin_nil : String.join ([] : List String) = "" := rfl

/-- String.join over a cons cell. -/
theorem strJoin_cons (a : String) (t : List String) :
    String.join (a :: t) = a ++ String.join t := by
  show t.foldl _ ("" ++ a) = a ++ String.join t
  rw [strJoin_foldl]
  rfl

/-- The write fold never touches the graph component of the state. -/
theorem foldl_writeStep_fst (l : List String) (st : Graph × List String) :
    (l.foldl writeStep st).1 = st.1 := by
  induction l generalizing st with
  | nil => rfl
  | cons a t ih =>
    rw [List.foldl_cons, ih]
    rfl

/-- The write fold appends exactly its writes to the stream component. -/
theorem foldl_writeStep_snd (l : List String) (st : Graph × List String) :
    (l.foldl writeStep st).2 = st.2 ++ l := by
  induction l generalizing st with
  | nil => simp
  | cons a t ih =>
    rw [List.foldl_cons, ih]
    simp [writeStep]

/-! Claims. -/

/-- C1: the claim reads find_json_files as accepting file paths directly,
searching every other path recursively for build.*.json, and failing
with an error naming the searched paths when nothing is found. The code
does accept file paths directly, but for every non-file path the nested
paths.extend(paths.extend(...)) call raises TypeError, because the inner
extend returns None; the BadParameter branch is unreachable. This
theorem evaluates the callback on a directory argument, on a file
argument, and on an empty argument tuple (which falls back to the
current working directory, a non-file). -/
theorem find_json_files_crashes_on_directory :
    find_json_files demoFS ["proj"] =
      Except.error (PyErr.typeError "NoneType object is not iterable") ∧
    find_json_files demoFS ["a.json"] = Except.ok ["a.json"] ∧
    find_json_files demoFS [] =
      Except.error (PyErr.typeError "NoneType object is not iterable") :=
  ⟨rfl, rfl, rfl⟩

/-- C2: the claim asserts that line 17 of the CLI module is a
syntactically valid Python import statement, so that the module loads
and every command is reachable. Against the Python grammar the token
sequence of line 17 is not an import statement: the import keyword must
be followed by a module name, and the keyword from can never serve as
one. The corrected from-based statement and a plain module
statement are both accepted by the same grammar model, so the rejection
is not vacuous. -/
theorem line17_not_an_import_stmt :
    isImportStmt line17Tokens = false ∧
    isImportStmt [PyTok.kwFrom, PyTok.ident "pathlib", PyTok.kwImport, PyTok.ident "Path"] = true ∧
    isImportStmt [PyTok.kwImport, PyTok.ident "datetime"] = true :=
  ⟨rfl, rfl, rfl⟩

/-- C3: the claim reads target_specifier as building, for every
TARGET:MAKEFILE:PID argument, a filter record whose empty components
become None and whose PID is parsed as an integer. The code splits the
argument into the loop variable but then reads the unbound name arg, so
CPython raises NameError on the first argument processed; only an empty
argument tuple returns normally. -/
theorem target_specifier_raises_name_error :
    target_specifier ["foo:bar:1"] = Except.error (PyErr.nameError "name arg is not defined") ∧
    target_specifier ["app"] = Except.error (PyErr.nameError "name arg is not defined") ∧
    target_specifier [] = Except.ok [] :=
  ⟨rfl, rfl, rfl⟩

/-- C4: a target whose source file is undefined is excluded from the
callgrind export entirely: its own block is empty (no ob/fl/fn record
and no cost line), and as a successor of any caller, at any caller line,
it contributes no call-edge record. -/
theorem dump_skips_fileless_target (g : Graph) (data : TargetData) (l : ℤ)
    (h : data.file = none) :
    targetWrites g data = [] ∧ depWrites l data = [] := by
  constructor
  · simp [targetWrites, h]
  · simp [depWrites, h]

/-- Witness for C4 at the sample phony target. -/
theorem dump_skips_fileless_target_witness :
    targetWrites sampleGraph phonyData = [] ∧ depWrites 5 phonyData = [] :=
  dump_skips_fileless_target sampleGraph phonyData 5 rfl

/-- C5: for a caller with a defined source file and a successor with a
defined source file, the export emits the call-edge block cob/cfi/cfn,
a calls=1 line, and a cost line pairing the caller line number with the
callee wall time in microseconds; the block occurs inside the caller
target record. -/
theorem dump_call_edge_record (g : Graph) (data dep : TargetData) (f fc : String)
    (hf : data.file = some f) (hdep : dep ∈ resolvedSuccessors g data)
    (hfc : dep.file = some fc) :
    depWrites data.line dep =
      ["cob=" ++ dep.directory ++ "\n",
       "cfi=" ++ fc ++ "\n",
       "cfn=" ++ dep.target ++ "\n",
       "calls=1 " ++ toString dep.line ++ "\n",
       toString data.line ++ " " ++ toString (microseconds dep.elapsed) ++ "\n"] ∧
    depWrites data.line dep <:+: targetWrites g data := by
  constructor
  · simp [depWrites, hfc]
  · have hmem : depWrites data.line dep ∈
        (resolvedSuccessors g data).map (depWrites data.line) :=
      List.mem_map_of_mem _ hdep
    have hinf := List.infix_of_mem_flatten hmem
    obtain ⟨u, v, huv⟩ := hinf
    refine ⟨["\nob=" ++ data.directory ++ "\n",
             "fl=" ++ f ++ "\n",
             "fn=" ++ data.target ++ "\n",
             String.intercalate " "
               ([toString data.line, toString (microseconds data.elapsed)] ++
                (if data.recipe then [toString (microseconds data.elapsed_recipe)] else [])) ++
               "\n"] ++ u, v, ?_⟩
    rw [targetWrites, hf]
    rw [List.flatMap_def, ← huv]
    simp

/-- Witness for C5 at the sample app target and its lib successor. -/
theorem dump_call_edge_record_witness :
    depWrites appData.line libData =
      ["cob=" ++ libData.directory ++ "\n",
       "cfi=" ++ "/src/lib/Makefile" ++ "\n",
       "cfn=" ++ libData.target ++ "\n",
       "calls=1 " ++ toString libData.line ++ "\n",
       toString appData.line ++ " " ++ toString (microseconds libData.elapsed) ++ "\n"] ∧
    depWrites appData.line libData <:+: targetWrites sampleGraph appData :=
  dump_call_edge_record sampleGraph appData libData "/src/Makefile" "/src/lib/Makefile"
    rfl (by decide) rfl

/-- C6: a target with a defined source file produces an ob/fl/fn record
followed by a cost line carrying its line number and its wall time in
microseconds, with the recipe time in microseconds appended exactly when
the recipe-executed flag is true, and then its successor blocks. -/
theorem dump_target_record (g : Graph) (data : TargetData) (f : String)
    (h : data.file = some f) :
    targetWrites g data =
      ["\nob=" ++ data.directory ++ "\n",
       "fl=" ++ f ++ "\n",
       "fn=" ++ data.target ++ "\n",
       toString data.line ++ " " ++ toString (microseconds data.elapsed) ++
         (if data.recipe then " " ++ toString (microseconds data.elapsed_recipe) else "") ++
         "\n"]
      ++ (resolvedSuccessors g data).flatMap (depWrites data.line) := by
  cases hr : data.recipe <;>
    simp [targetWrites, h, hr, intercalate_two, intercalate_three,
      String.append_assoc, String.append_empty]

/-- Witness for C6 at the sample app target (recipe executed) evaluated
explicitly: two cost values on the cost line. -/
theorem dump_target_record_witness :
    targetWrites sampleGraph appData =
      ["\nob=" ++ appData.directory ++ "\n",
       "fl=" ++ "/src/Makefile" ++ "\n",
       "fn=" ++ appData.target ++ "\n",
       toString appData.line ++ " " ++ toString (microseconds appData.elapsed) ++
         (if appData.recipe then " " ++ toString (microseconds appData.elapsed_recipe) else "") ++
         "\n"]
      ++ (resolvedSuccessors sampleGraph appData).flatMap (depWrites appData.line) :=
  dump_target_record sampleGraph appData "/src/Makefile" rfl

/-- C7: every time value emitted by dump_callgrind is produced by the
microsecond conversion, which equals the source duration in microseconds
exactly (timedelta values hold integer microsecond counts), and the
rounding step underneath is round-to-nearest — its distance to the exact
quotient is at most one half, never a truncation toward zero. -/
theorem dump_times_round_to_nearest (d a b : ℤ) (hb : 0 < b) :
    microseconds d = d ∧ 2 * |pyRoundDiv a b * b - a| ≤ b :=
  ⟨microseconds_eq_self d, pyRoundDiv_nearest a b hb⟩

/-- Witness for C7: exact conversion of 2500 microseconds and nearest
rounding of the quotient 7 / 2. -/
theorem dump_times_round_to_nearest_witness :
    microseconds 2500 = 2500 ∧ 2 * |pyRoundDiv 7 2 * 2 - 7| ≤ 2 :=
  dump_times_round_to_nearest 2500 7 2 (by decide)

/-- C8: in a graph whose successor keys all resolve in the target mapping
and whose durations are non-negative, every emitted call edge points at
a callee that also has its own fl and fn records in the output, and
every numeric cost value is non-negative. -/
theorem dump_export_complete (g : Graph)
    (hsucc : ∀ p ∈ g.targets, ∀ k ∈ p.2.successors, (g.targets.lookup k).isSome = true)
    (hdur : ∀ p ∈ g.targets, 0 ≤ p.2.elapsed ∧ 0 ≤ p.2.elapsed_recipe) :
    (∀ p ∈ g.targets, ∀ dep ∈ resolvedSuccessors g p.2, ∀ fc, dep.file = some fc →
        ("fl=" ++ fc ++ "\n") ∈ dumpWrites g ∧ ("fn=" ++ dep.target ++ "\n") ∈ dumpWrites g) ∧
    (∀ v ∈ emittedCosts g, 0 ≤ v) := by
  constructor
  · rintro p hp dep hdep fc hfc
    obtain ⟨k, _, hlook⟩ := List.mem_filterMap.mp hdep
    have hmem : (k, dep) ∈ g.targets := lookup_mem hlook
    have hdm : dep ∈ g.targets.map Prod.snd := List.mem_map.mpr ⟨(k, dep), hmem, rfl⟩
    have hfl : ("fl=" ++ fc ++ "\n") ∈ targetWrites g dep := by
      simp [targetWrites, hfc]
    have hfn : ("fn=" ++ dep.target ++ "\n") ∈ targetWrites g dep := by
      simp [targetWrites, hfc]
    constructor
    · exact List.mem_append_right _ (List.mem_flatMap.mpr ⟨dep, hdm, hfl⟩)
    · exact List.mem_append_right _ (List.mem_flatMap.mpr ⟨dep, hdm, hfn⟩)
  · rintro v hv
    obtain ⟨data, hdm, hvin⟩ := List.mem_flatMap.mp hv
    obtain ⟨p, hp, hps⟩ := List.mem_map.mp hdm
    have hd := hdur p hp
    rw [hps] at hd
    cases hfile : data.file with
    | none =>
      rw [hfile] at hvin
      simp at hvin
    | some f =>
      rw [hfile] at hvin
      rcases List.mem_cons.mp hvin with h | h
      · rw [h, microseconds_eq_self]
        exact hd.1
      · rcases List.mem_append.mp h with h | h
        · cases hr : data.recipe
          · rw [hr] at h
            simp at h
          · rw [hr] at h
            simp at h
            rw [h, microseconds_eq_self]
            exact hd.2
        · obtain ⟨dep, hdep, hv2⟩ := List.mem_flatMap.mp h
          obtain ⟨k, _, hlook⟩ := List.mem_filterMap.mp hdep
          have hmem : (k, dep) ∈ g.targets := lookup_mem hlook
          have hdd := hdur (k, dep) hmem
          cases hdf : dep.file with
          | none =>
            rw [hdf] at hv2
            simp at hv2
          | some fd =>
            rw [hdf] at hv2
            simp at hv2
            rw [hv2, microseconds_eq_self]
            exact hdd.1

/-- Witness for C8 at the sample graph. -/
theorem dump_export_complete_witness :
    (∀ p ∈ sampleGraph.targets, ∀ dep ∈ resolvedSuccessors sampleGraph p.2,
        ∀ fc, dep.file = some fc →
        ("fl=" ++ fc ++ "\n") ∈ dumpWrites sampleGraph ∧
        ("fn=" ++ dep.target ++ "\n") ∈ dumpWrites sampleGraph) ∧
    (∀ v ∈ emittedCosts sampleGraph, 0 ≤ v) :=
  dump_export_complete sampleGraph (by decide) (by decide)

/-- C9: the output of dump_callgrind begins with the fixed header — the
format comment, version: 1, the creator line and the cmd line taken from
the Entry of the merged graph (creator string, space-joined argv), the
desc line, positions: line, the two event declarations and the events
line — and only after all of these come the target records. -/
theorem dump_begins_with_header (g : Graph) :
    dump_callgrind g =
      "# callgrind format\n" ++ "version: 1\n" ++
      "creator: " ++ g.entry.creator ++ "\n" ++
      "cmd: " ++ String.intercalate " " g.entry.argv ++ "\n" ++
      "desc: Node: Targets\n" ++ "positions: line\n" ++
      "event: Wt : Wall Time\n" ++ "event: Rt : Recipe Time\n" ++
      "events: Wt Rt\n\n" ++
      String.join ((g.targets.map Prod.snd).flatMap (targetWrites g)) := by
  rw [dump_callgrind, dumpWrites, strJoin_append]
  simp only [headerWrites, strJoin_cons, strJoin_nil, String.append_empty,
    String.append_assoc]

/-- C10: dump_callgrind consumes the graph read-only: running every write
as an explicit state transition leaves the graph component — entry,
target mapping, target attributes and successors — exactly as it
started, and only appends to the output stream. -/
theorem dump_callgrind_read_only (g : Graph) :
    (dumpRun g).1 = g ∧ (dumpRun g).2 = dumpWrites g := by
  constructor
  · exact foldl_writeStep_fst _ _
  · rw [dumpRun, foldl_writeStep_snd]
    simp

end Makegrind
